import Mathlib

set_option maxRecDepth 2000

/- Verification development for the live-interpreter relay and voice-activity
segmentation pipeline. The definitions below are shallow embeddings of
backend/config.py, backend/local_client.py, backend/connection_manager.py,
backend/main.py and agent/agent.py. Audio bytes are modelled as naturals,
probabilities as rationals, connections as naturals, and the external VAD
model as an oracle function from the evaluated byte slice to a probability. -/

namespace settings

/-- VAD_THRESHOLD from backend/config.py: 0.5. -/
def VAD_THRESHOLD : ℚ := 1/2

/-- VAD_MIN_SILENCE_DURATION_MS from backend/config.py: 500 (milliseconds). -/
def VAD_MIN_SILENCE_DURATION_MS : ℚ := 500

end settings

/-- The mutable fields of backend/local_client.py's LocalSpeechProcessor that
push_audio_chunk reads and writes: audio_buffer, is_speaking, silence_frames,
and the readiness flag set by _load_models. -/
structure SpeechState where
  audio_buffer : List ℕ
  is_speaking : Bool
  silence_frames : ℕ
  is_ready : Bool
deriving DecidableEq

/-- Outcome of one push_audio_chunk call: the updated processor state, the byte
slice handed to the VAD model during this call (none when the VAD was not
consulted), and the buffer handed to process_audio / transcription when this
call finalized an utterance (none otherwise). -/
structure PushResult where
  state : SpeechState
  evaluated : Option (List ℕ)
  finalized : Option (List ℕ)
deriving DecidableEq

namespace LocalSpeechProcessor

/-- LocalSpeechProcessor.push_audio_chunk from backend/local_client.py.
If not is_ready it returns at once. Otherwise it extends audio_buffer with the
chunk; if the whole buffer is shorter than 3072 bytes it returns. Otherwise it
runs the VAD model on the ENTIRE accumulated buffer. On speech probability
strictly above VAD_THRESHOLD it sets is_speaking and zeroes silence_frames.
Otherwise it increments silence_frames when is_speaking, and when
silence_frames exceeds VAD_MIN_SILENCE_DURATION_MS / 96 it resets the flags,
hands the whole buffer to process_audio, and clears the buffer. -/
def push_audio_chunk (vad : List ℕ → ℚ) (s : SpeechState) (chunk : List ℕ) :
    PushResult :=
  if s.is_ready = false then ⟨s, none, none⟩
  else
    let buf := s.audio_buffer ++ chunk
    if buf.length < 3072 then ⟨{ s with audio_buffer := buf }, none, none⟩
    else
      let speech_prob := vad buf
      if speech_prob > settings.VAD_THRESHOLD then
        ⟨{ s with audio_buffer := buf, is_speaking := true, silence_frames := 0 },
          some buf, none⟩
      else
        let sf := if s.is_speaking then s.silence_frames + 1 else s.silence_frames
        if (sf : ℚ) > settings.VAD_MIN_SILENCE_DURATION_MS / 96 then
          ⟨{ s with audio_buffer := [], is_speaking := false, silence_frames := 0 },
            some buf, some buf⟩
        else
          ⟨{ s with audio_buffer := buf, silence_frames := sf }, some buf, none⟩

/-- LocalSpeechProcessor.stop from backend/local_client.py: its body is a
single log statement, so the state is untouched and no buffer is handed to
transcription. -/
def stop (s : SpeechState) : SpeechState × Option (List ℕ) := (s, none)

end LocalSpeechProcessor

/-- Folds push_audio_chunk over a list of incoming chunks, collecting in order
the finalized utterance buffers and the byte slices evaluated by the VAD:
the receive loop of websocket_audio_endpoint feeding the processor. -/
def pushStream (vad : List ℕ → ℚ) : SpeechState → List (List ℕ) →
    SpeechState × List (List ℕ) × List (List ℕ)
  | s, [] => (s, [], [])
  | s, c :: cs =>
      let r := LocalSpeechProcessor.push_audio_chunk vad s c
      let rest := pushStream vad r.state cs
      (rest.1, r.finalized.toList ++ rest.2.1, r.evaluated.toList ++ rest.2.2)

/-- State of a freshly constructed processor whose _load_models succeeded:
empty buffer, not speaking, zero silence frames, ready. -/
def init_state : SpeechState := ⟨[], false, 0, true⟩

/-- State of a processor whose _load_models failed: is_ready stays false. -/
def not_ready_state : SpeechState := ⟨[], false, 0, false⟩

/-- A concrete VAD oracle for counterexample runs: full speech probability
while the buffer is at most one window long, silence afterwards. -/
def vad_speech_then_silence (b : List ℕ) : ℚ :=
  if b.length ≤ 3072 then 1 else 0

/-- A 3072-byte capture block: exactly one VAD window of 16 kHz 16-bit mono
audio (1536 samples). -/
def chunk0 : List ℕ := List.replicate 3072 0

namespace ConnectionManager

/-- ConnectionManager.disconnect from backend/connection_manager.py: removes
the connection from the pool when present, otherwise only logs (no-op). -/
def disconnect (active : List ℕ) (ws : ℕ) : List ℕ :=
  if ws ∈ active then active.erase ws else active

/-- ConnectionManager.broadcast from backend/connection_manager.py: a send
task is created for every connection in the pool, all tasks are gathered with
exceptions collected per task, then every connection whose send raised is
removed from the pool after the fan-out. The oracle send_ok tells whether the
send to a given connection succeeds. Returns (connections whose send
succeeded and so received the message, the pool after pruning). -/
def broadcast (active : List ℕ) (send_ok : ℕ → Bool) : List ℕ × List ℕ :=
  let results := active.map send_ok
  let delivered := ((active.zip results).filter fun p => p.2).map Prod.fst
  let connections_to_remove :=
    ((active.zip results).filter fun p => !p.2).map Prod.fst
  (delivered, connections_to_remove.foldl (fun l c => l.erase c) active)

end ConnectionManager

/-- Observable outcome of the connection phase of websocket_audio_endpoint in
backend/main.py for a new agent connection, as a triple (accepted, close
reason, status value broadcast to observers): the handler unconditionally
runs agent_manager.connect (which accepts the socket) and then broadcasts a
status message with agent_connected true; it contains no readiness check, so
the processor readiness flag passed here is never consulted and no close
reason is ever produced at registration. -/
def websocket_audio_register (_is_ready : Bool) :
    Bool × Option String × Option Bool :=
  (true, none, some true)

/-- Result of the finally block of websocket_audio_endpoint in
backend/main.py, which runs on agent disconnect or error. -/
structure TeardownResult where
  agent_pool : List ℕ
  status_agent_connected : Bool
  observers_reached : List ℕ
  observer_pool : List ℕ
  flushed : Option (List ℕ)
deriving DecidableEq

/-- The finally block of websocket_audio_endpoint in backend/main.py:
agent_manager.disconnect(websocket), then manager.broadcast of a status
message whose agent_connected field is the literal False, then
processor.stop(). -/
def websocket_audio_finally (agents observers : List ℕ) (ws : ℕ)
    (send_ok : ℕ → Bool) (s : SpeechState) : TeardownResult :=
  let agents2 := ConnectionManager.disconnect agents ws
  let b := ConnectionManager.broadcast observers send_ok
  ⟨agents2, false, b.1, b.2, (LocalSpeechProcessor.stop s).2⟩

/-- A structured message on the /ws/data channel, modelling the JSON dicts:
each field is the value of data.get for that key, none when the key is
absent. -/
structure Msg where
  mtype : Option String
  command : Option String
  muted_flag : Option Bool
deriving DecidableEq

/-- The relay branch of websocket_data_endpoint in backend/main.py: for a
message received from an observer connection, the payload broadcast to the
agent pool (agent_manager), if any. A mute_toggle with command mute or unmute
is relayed as a dict holding ONLY the command key; a pause_toggle with pause
or resume is relayed with both the type and the command key. Other message
types are not relayed to agents. -/
def relay_to_agents (m : Msg) : Option Msg :=
  if m.mtype = some "mute_toggle" then
    if m.command = some "mute" ∨ m.command = some "unmute" then
      some ⟨none, m.command, none⟩
    else none
  else if m.mtype = some "pause_toggle" then
    if m.command = some "pause" ∨ m.command = some "resume" then
      some ⟨some "pause_toggle", m.command, none⟩
    else none
  else none

/-- The is_muted and is_paused globals of agent/agent.py. -/
structure AgentControlState where
  is_muted : Bool
  is_paused : Bool
deriving DecidableEq

/-- One iteration of the receive loop of control_listener in agent/agent.py:
a message whose type field is mute_toggle sets or clears is_muted according
to its command and always triggers a mute_status reply; a pause_toggle sets
or clears is_paused with no reply; any other message leaves the state alone
and sends nothing. -/
def control_listener_step (s : AgentControlState) (m : Msg) :
    AgentControlState × Option Msg :=
  if m.mtype = some "mute_toggle" then
    let s2 :=
      if m.command = some "mute" then { s with is_muted := true }
      else if m.command = some "unmute" then { s with is_muted := false }
      else s
    (s2, some ⟨some "mute_status", none, some s2.is_muted⟩)
  else if m.mtype = some "pause_toggle" then
    let s2 :=
      if m.command = some "pause" then { s with is_paused := true }
      else if m.command = some "resume" then { s with is_paused := false }
      else s
    (s2, none)
  else (s, none)

/-- audio_callback from agent/agent.py: run once per captured block; when
is_muted or is_paused is set the block is dropped, otherwise its bytes are
enqueued unchanged. The callback never writes the control flags. -/
def audio_callback (s : AgentControlState) (indata : List ℕ) :
    AgentControlState × Option (List ℕ) :=
  if s.is_muted || s.is_paused then (s, none) else (s, some indata)

/-- One dequeue step of the audio_sender loop in agent/agent.py: the control
flags as read at the moment the frame is taken from the queue, and the frame
itself. -/
structure SenderStep where
  is_muted : Bool
  is_paused : Bool
  frame : List ℕ
deriving DecidableEq

/-- The audio_sender loop of agent/agent.py over a whole session: each
iteration awaits a frame from the queue and sends it only when neither
is_muted nor is_paused holds at that moment; otherwise the dequeued frame is
discarded. Returns the frames actually sent, in order. -/
def audio_sender : List SenderStep → List (List ℕ)
  | [] => []
  | st :: rest =>
      if st.is_muted = false ∧ st.is_paused = false then
        st.frame :: audio_sender rest
      else audio_sender rest

/- Helper lemmas about the embedded operations. -/

theorem push_eq_of_not_ready (vad : List ℕ → ℚ) (s : SpeechState)
    (chunk : List ℕ) (h : s.is_ready = false) :
    LocalSpeechProcessor.push_audio_chunk vad s chunk = ⟨s, none, none⟩ := by
  simp only [LocalSpeechProcessor.push_audio_chunk]
  rw [if_pos h]

theorem push_eq_of_short (vad : List ℕ → ℚ) (s : SpeechState) (chunk : List ℕ)
    (h : s.is_ready = true) (hl : (s.audio_buffer ++ chunk).length < 3072) :
    LocalSpeechProcessor.push_audio_chunk vad s chunk =
      ⟨{ s with audio_buffer := s.audio_buffer ++ chunk }, none, none⟩ := by
  simp only [LocalSpeechProcessor.push_audio_chunk]
  rw [if_neg (by simp [h]), if_pos hl]

theorem push_eq_of_speech (vad : List ℕ → ℚ) (s : SpeechState) (chunk : List ℕ)
    (h : s.is_ready = true) (hl : 3072 ≤ (s.audio_buffer ++ chunk).length)
    (hp : settings.VAD_THRESHOLD < vad (s.audio_buffer ++ chunk)) :
    LocalSpeechProcessor.push_audio_chunk vad s chunk =
      ⟨{ s with
          audio_buffer := s.audio_buffer ++ chunk, is_speaking := true,
          silence_frames := 0 },
        some (s.audio_buffer ++ chunk), none⟩ := by
  simp only [LocalSpeechProcessor.push_audio_chunk]
  rw [if_neg (by simp [h]), if_neg (Nat.not_lt.mpr hl), if_pos hp]

theorem push_eq_of_silence_continue (vad : List ℕ → ℚ) (s : SpeechState)
    (chunk : List ℕ) (h : s.is_ready = true)
    (hl : 3072 ≤ (s.audio_buffer ++ chunk).length)
    (hp : vad (s.audio_buffer ++ chunk) ≤ settings.VAD_THRESHOLD)
    (hc : ¬ (((if s.is_speaking then s.silence_frames + 1
          else s.silence_frames : ℕ) : ℚ) >
        settings.VAD_MIN_SILENCE_DURATION_MS / 96)) :
    LocalSpeechProcessor.push_audio_chunk vad s chunk =
      ⟨{ s with
          audio_buffer := s.audio_buffer ++ chunk,
          silence_frames :=
            if s.is_speaking then s.silence_frames + 1 else s.silence_frames },
        some (s.audio_buffer ++ chunk), none⟩ := by
  simp only [LocalSpeechProcessor.push_audio_chunk]
  rw [if_neg (by simp [h]), if_neg (Nat.not_lt.mpr hl),
    if_neg (not_lt.mpr hp), if_neg hc]

theorem push_eq_of_finalize (vad : List ℕ → ℚ) (s : SpeechState)
    (chunk : List ℕ) (h : s.is_ready = true)
    (hl : 3072 ≤ (s.audio_buffer ++ chunk).length)
    (hp : vad (s.audio_buffer ++ chunk) ≤ settings.VAD_THRESHOLD)
    (hc : (((if s.is_speaking then s.silence_frames + 1
          else s.silence_frames : ℕ) : ℚ) >
        settings.VAD_MIN_SILENCE_DURATION_MS / 96)) :
    LocalSpeechProcessor.push_audio_chunk vad s chunk =
      ⟨{ s with
          audio_buffer := [], is_speaking := false, silence_frames := 0 },
        some (s.audio_buffer ++ chunk), some (s.audio_buffer ++ chunk)⟩ := by
  simp only [LocalSpeechProcessor.push_audio_chunk]
  rw [if_neg (by simp [h]), if_neg (Nat.not_lt.mpr hl),
    if_neg (not_lt.mpr hp), if_pos hc]

/-- The silence-run cutoff used by push_audio_chunk: a natural count is
strictly above 500/96 exactly when it is at least 6. -/
theorem silence_count_gt_iff (n : ℕ) :
    ((n : ℚ) > settings.VAD_MIN_SILENCE_DURATION_MS / 96) ↔ 6 ≤ n := by
  unfold settings.VAD_MIN_SILENCE_DURATION_MS
  constructor
  · intro hgt
    by_contra hn
    push_neg at hn
    have h5 : n ≤ 5 := Nat.lt_succ_iff.mp hn
    have h5q : (n : ℚ) ≤ 5 := by exact_mod_cast h5
    have : (500 : ℚ) / 96 < 5 := lt_of_lt_of_le hgt h5q
    norm_num at this
  · intro h6
    have h6q : (6 : ℚ) ≤ (n : ℚ) := by exact_mod_cast h6
    have : (500 : ℚ) / 96 < 6 := by norm_num
    exact lt_of_lt_of_le this h6q

/-- The ceiling of MIN_SILENCE_MS / WINDOW_MS for the configured values. -/
theorem silence_ceil_eq_six :
    ⌈settings.VAD_MIN_SILENCE_DURATION_MS / 96⌉ = 6 := by
  unfold settings.VAD_MIN_SILENCE_DURATION_MS
  rw [Int.ceil_eq_iff]
  norm_num

/-- First push of the counterexample run: one full window of speech. -/
theorem push_vadC6_speech :
    LocalSpeechProcessor.push_audio_chunk vad_speech_then_silence init_state
      chunk0 = ⟨⟨chunk0, true, 0, true⟩, some chunk0, none⟩ := by
  norm_num [-List.reduceReplicate, -reduceIte,
    LocalSpeechProcessor.push_audio_chunk, vad_speech_then_silence, init_state,
    chunk0, settings.VAD_THRESHOLD, settings.VAD_MIN_SILENCE_DURATION_MS]

/-- A silent push while speaking with at most four prior silent windows:
the silence count grows and nothing is finalized. -/
theorem push_vadC6_silent (b : List ℕ) (k : ℕ) (hb : 3072 ≤ b.length)
    (hk : k + 1 ≤ 5) :
    LocalSpeechProcessor.push_audio_chunk vad_speech_then_silence
      ⟨b, true, k, true⟩ [0] =
      ⟨⟨b ++ [0], true, k + 1, true⟩, some (b ++ [0]), none⟩ := by
  have hl : 3072 ≤ (b ++ [0]).length := by
    simp only [List.length_append, List.length_cons, List.length_nil]
    omega
  have hp : vad_speech_then_silence (b ++ [0]) ≤ settings.VAD_THRESHOLD := by
    have hgt : ¬ ((b ++ [0]).length ≤ 3072) := by
      simp only [List.length_append, List.length_cons, List.length_nil]
      omega
    unfold vad_speech_then_silence settings.VAD_THRESHOLD
    rw [if_neg hgt]
    norm_num
  have hc : ¬ (((k + 1 : ℕ) : ℚ) >
      settings.VAD_MIN_SILENCE_DURATION_MS / 96) := by
    rw [silence_count_gt_iff]
    omega
  have h := push_eq_of_silence_continue vad_speech_then_silence
    ⟨b, true, k, true⟩ [0] rfl hl hp (by simpa using hc)
  simpa using h

/-- The sixth consecutive silent push finalizes the whole buffer. -/
theorem push_vadC6_final (b : List ℕ) (hb : 3072 ≤ b.length) :
    LocalSpeechProcessor.push_audio_chunk vad_speech_then_silence
      ⟨b, true, 5, true⟩ [0] =
      ⟨⟨[], false, 0, true⟩, some (b ++ [0]), some (b ++ [0])⟩ := by
  have hl : 3072 ≤ (b ++ [0]).length := by
    simp only [List.length_append, List.length_cons, List.length_nil]
    omega
  have hp : vad_speech_then_silence (b ++ [0]) ≤ settings.VAD_THRESHOLD := by
    have hgt : ¬ ((b ++ [0]).length ≤ 3072) := by
      simp only [List.length_append, List.length_cons, List.length_nil]
      omega
    unfold vad_speech_then_silence settings.VAD_THRESHOLD
    rw [if_neg hgt]
    norm_num
  have hc : (((5 + 1 : ℕ) : ℚ) >
      settings.VAD_MIN_SILENCE_DURATION_MS / 96) := by
    rw [silence_count_gt_iff]
  have h := push_eq_of_finalize vad_speech_then_silence
    ⟨b, true, 5, true⟩ [0] rfl hl hp (by simpa using hc)
  simpa using h

/-- Runs that never meet the VAD threshold keep the invariant
is_speaking = false, silence_frames = 0 and finalize nothing. -/
theorem pushStream_silent (vad : List ℕ → ℚ)
    (hv : ∀ b, vad b ≤ settings.VAD_THRESHOLD) :
    ∀ (chunks : List (List ℕ)) (s : SpeechState),
      s.is_speaking = false → s.silence_frames = 0 →
      (pushStream vad s chunks).2.1 = [] := by
  intro chunks
  induction chunks with
  | nil => intro s _ _; rfl
  | cons c cs ih =>
      intro s hspk hsf
      by_cases hr : s.is_ready = false
      · rw [pushStream, push_eq_of_not_ready vad s c hr]
        simpa using ih s hspk hsf
      · have hr2 : s.is_ready = true := by
          cases h : s.is_ready
          · exact absurd h hr
          · rfl
        by_cases hl : (s.audio_buffer ++ c).length < 3072
        · rw [pushStream, push_eq_of_short vad s c hr2 hl]
          simpa using
            ih { s with audio_buffer := s.audio_buffer ++ c } hspk hsf
        · have hl2 : 3072 ≤ (s.audio_buffer ++ c).length := Nat.not_lt.mp hl
          have hc : ¬ (((if s.is_speaking then s.silence_frames + 1
                else s.silence_frames : ℕ) : ℚ) >
              settings.VAD_MIN_SILENCE_DURATION_MS / 96) := by
            rw [hspk, if_neg (by simp), hsf, silence_count_gt_iff]
            omega
          rw [pushStream,
            push_eq_of_silence_continue vad s c hr2 hl2 (hv _) hc]
          simpa [hspk, hsf] using
            ih { s with
                audio_buffer := s.audio_buffer ++ c,
                silence_frames :=
                  if s.is_speaking then s.silence_frames + 1
                  else s.silence_frames }
              hspk (by simp [hspk, hsf])

theorem zip_map_filter_pos (f : ℕ → Bool) (l : List ℕ) :
    ((l.zip (l.map f)).filter fun p => p.2).map Prod.fst = l.filter f := by
  induction l with
  | nil => rfl
  | cons a t ih =>
      by_cases h : f a <;>
        simp [List.filter_cons, h, ih]

theorem zip_map_filter_neg (f : ℕ → Bool) (l : List ℕ) :
    ((l.zip (l.map f)).filter fun p => !p.2).map Prod.fst =
      l.filter fun c => !f c := by
  induction l with
  | nil => rfl
  | cons a t ih =>
      by_cases h : f a <;>
        simp [List.filter_cons, h, ih]

theorem foldl_erase_of_not_mem (rs : List ℕ) (a : ℕ) (l : List ℕ)
    (ha : a ∉ rs) :
    rs.foldl (fun acc c => acc.erase c) (a :: l) =
      a :: rs.foldl (fun acc c => acc.erase c) l := by
  induction rs generalizing l with
  | nil => rfl
  | cons r rt ih =>
      have hne : a ≠ r := List.ne_of_not_mem_cons ha
      have hta : a ∉ rt := List.not_mem_of_not_mem_cons ha
      simp only [List.foldl_cons]
      rw [List.erase_cons_tail]
      · exact ih (l.erase r) hta
      · simpa using hne

theorem foldl_erase_filter (f : ℕ → Bool) (l : List ℕ) (h : l.Nodup) :
    (l.filter fun c => !f c).foldl (fun acc c => acc.erase c) l =
      l.filter f := by
  induction l with
  | nil => rfl
  | cons a t ih =>
      obtain ⟨hat, ht⟩ := List.nodup_cons.mp h
      by_cases hfa : f a
      · have hmem : a ∉ t.filter fun c => !f c :=
          fun hm => hat (List.mem_of_mem_filter hm)
        simp only [List.filter_cons, hfa, Bool.not_true,
          Bool.false_eq_true, if_false, if_true]
        rw [foldl_erase_of_not_mem _ _ _ hmem, ih ht]
      · have hfa2 : f a = false := by
          cases h2 : f a
          · rfl
          · exact absurd h2 hfa
        simp only [List.filter_cons, hfa2, Bool.not_false,
          Bool.false_eq_true, if_false, if_true]
        simp only [List.foldl_cons, List.erase_cons_head]
        exact ih ht

/-- Closed form of ConnectionManager.broadcast over a duplicate-free pool:
the message reaches exactly the connections whose send succeeds, and the
pool afterwards holds exactly those connections. -/
theorem broadcast_eq (active : List ℕ) (send_ok : ℕ → Bool)
    (h : active.Nodup) :
    ConnectionManager.broadcast active send_ok =
      (active.filter send_ok, active.filter send_ok) := by
  simp only [ConnectionManager.broadcast]
  rw [zip_map_filter_pos, zip_map_filter_neg, foldl_erase_filter _ _ h]

/- Claim theorems. -/

/-- C1: the hub relays an observer mute command as a payload holding only the
command key, without the type key that control_listener requires; fed to the
agent's control listener, that relayed payload leaves the control state with
muted still false and produces no mute_status reply, whereas the same command
with the type key present would set muted. The claim that every agent ends
with muted = true therefore fails on the code. -/
theorem mute_relay_lacks_type_field :
    relay_to_agents ⟨some "mute_toggle", some "mute", none⟩ =
      some ⟨none, some "mute", none⟩ ∧
    (control_listener_step ⟨false, false⟩ ⟨none, some "mute", none⟩).1.is_muted
      = false ∧
    (control_listener_step ⟨false, false⟩ ⟨none, some "mute", none⟩).2
      = none ∧
    (control_listener_step ⟨false, false⟩
        ⟨some "mute_toggle", some "mute", none⟩).1.is_muted = true := by
  refine ⟨?_, ?_, ?_, ?_⟩ <;>
    simp [relay_to_agents, control_listener_step]

/-- C2 counterexample: after a run that crosses the speech threshold
(is_speaking = true, non-empty 3072-byte buffer), the engine's stop hands
nothing to transcription, contradicting the claim that a disconnect
mid-utterance flushes the buffer. -/
theorem stop_discards_mid_utterance_buffer :
    (pushStream vad_speech_then_silence init_state
        [chunk0]).1.audio_buffer.length = 3072 ∧
    (pushStream vad_speech_then_silence init_state [chunk0]).1.is_speaking
      = true ∧
    (LocalSpeechProcessor.stop
        (pushStream vad_speech_then_silence init_state [chunk0]).1).2
      = none := by
  have h0 := push_vadC6_speech
  refine ⟨?_, ?_, ?_⟩
  · simp only [pushStream, h0]
    simp [chunk0, -List.reduceReplicate]
  · simp only [pushStream, h0]
  · simp only [pushStream, h0, LocalSpeechProcessor.stop]

/-- C2 amended: on agent disconnect the finally block performs no flush at
all — the processor's stop leaves the state untouched and hands nothing to
transcription, so any accumulated buffer is discarded whether or not the
speech threshold was ever crossed. -/
theorem teardown_flushes_nothing (agents observers : List ℕ) (ws : ℕ)
    (send_ok : ℕ → Bool) (s : SpeechState) :
    (websocket_audio_finally agents observers ws send_ok s).flushed = none ∧
    LocalSpeechProcessor.stop s = (s, none) :=
  ⟨rfl, rfl⟩

/-- C3: with the transcription collaborator not ready, the audio endpoint
still accepts the connection, produces no "not ready" close reason, even
broadcasts agent_connected = true, and every subsequent frame is silently
ignored by push_audio_chunk — contradicting the claim (and the repository's
own tests) that such connections are refused at registration. -/
theorem not_ready_connection_accepted_frames_ignored :
    (websocket_audio_register false).1 = true ∧
    (websocket_audio_register false).2.1 = none ∧
    (websocket_audio_register false).2.2 = some true ∧
    LocalSpeechProcessor.push_audio_chunk vad_speech_then_silence
        not_ready_state chunk0 = ⟨not_ready_state, none, none⟩ :=
  ⟨rfl, rfl, rfl, push_eq_of_not_ready _ _ _ rfl⟩

/-- C4 counterexample: in a two-push run the second VAD evaluation is applied
to a slice of 3073 bytes, so the VAD is not only evaluated on fixed
3072-byte windows; no window is extracted from the buffer. -/
theorem vad_evaluated_on_oversized_slice :
    (pushStream vad_speech_then_silence init_state
        [chunk0, [0]]).2.2.map List.length = [3072, 3073] ∧
    (3073 : ℕ) ≠ 3072 := by
  have h0 := push_vadC6_speech
  have h1 := push_vadC6_silent chunk0 0
    (by simp [chunk0, -List.reduceReplicate]) (by omega)
  constructor
  · simp only [pushStream, h0, h1, Option.toList, List.nil_append,
      List.append_nil]
    simp [chunk0, -List.reduceReplicate, List.length_append,
      List.length_replicate]
  · omega

/-- C4 amended: each push appends the frame; while the accumulated buffer is
shorter than 3072 bytes the VAD is not consulted, and otherwise the VAD is
evaluated exactly once per push on the ENTIRE accumulated buffer (which can
be longer than 3072 bytes); no window is extracted — unless the push
finalizes, the whole buffer is retained. -/
theorem vad_evaluates_entire_buffer_once (vad : List ℕ → ℚ) (s : SpeechState)
    (chunk : List ℕ) (hr : s.is_ready = true) :
    ((s.audio_buffer ++ chunk).length < 3072 →
      (LocalSpeechProcessor.push_audio_chunk vad s chunk).evaluated = none) ∧
    (3072 ≤ (s.audio_buffer ++ chunk).length →
      (LocalSpeechProcessor.push_audio_chunk vad s chunk).evaluated =
        some (s.audio_buffer ++ chunk)) ∧
    ((LocalSpeechProcessor.push_audio_chunk vad s chunk).finalized = none →
      (LocalSpeechProcessor.push_audio_chunk vad s chunk).state.audio_buffer =
        s.audio_buffer ++ chunk) := by
  refine ⟨fun hl => ?_, fun hl => ?_, fun hf => ?_⟩
  · rw [push_eq_of_short vad s chunk hr hl]
  · by_cases hp : settings.VAD_THRESHOLD < vad (s.audio_buffer ++ chunk)
    · rw [push_eq_of_speech vad s chunk hr hl hp]
    · have hp2 : vad (s.audio_buffer ++ chunk) ≤ settings.VAD_THRESHOLD :=
        not_lt.mp hp
      by_cases hc : (((if s.is_speaking then s.silence_frames + 1
            else s.silence_frames : ℕ) : ℚ) >
          settings.VAD_MIN_SILENCE_DURATION_MS / 96)
      · rw [push_eq_of_finalize vad s chunk hr hl hp2 hc]
      · rw [push_eq_of_silence_continue vad s chunk hr hl hp2 hc]
  · by_cases hl : (s.audio_buffer ++ chunk).length < 3072
    · rw [push_eq_of_short vad s chunk hr hl]
    · have hl2 : 3072 ≤ (s.audio_buffer ++ chunk).length := Nat.not_lt.mp hl
      by_cases hp : settings.VAD_THRESHOLD < vad (s.audio_buffer ++ chunk)
      · rw [push_eq_of_speech vad s chunk hr hl2 hp]
      · have hp2 : vad (s.audio_buffer ++ chunk) ≤ settings.VAD_THRESHOLD :=
          not_lt.mp hp
        by_cases hc : (((if s.is_speaking then s.silence_frames + 1
              else s.silence_frames : ℕ) : ℚ) >
            settings.VAD_MIN_SILENCE_DURATION_MS / 96)
        · rw [push_eq_of_finalize vad s chunk hr hl2 hp2 hc] at hf
          simp at hf
        · rw [push_eq_of_silence_continue vad s chunk hr hl2 hp2 hc]

theorem vad_evaluates_entire_buffer_once_witness :
    init_state.is_ready = true ∧
    (((init_state.audio_buffer ++ [0]).length < 3072 →
      (LocalSpeechProcessor.push_audio_chunk vad_speech_then_silence
          init_state [0]).evaluated = none) ∧
    (3072 ≤ (init_state.audio_buffer ++ [0]).length →
      (LocalSpeechProcessor.push_audio_chunk vad_speech_then_silence
          init_state [0]).evaluated = some (init_state.audio_buffer ++ [0])) ∧
    ((LocalSpeechProcessor.push_audio_chunk vad_speech_then_silence
          init_state [0]).finalized = none →
      (LocalSpeechProcessor.push_audio_chunk vad_speech_then_silence
          init_state [0]).state.audio_buffer =
        init_state.audio_buffer ++ [0])) :=
  ⟨rfl, vad_evaluates_entire_buffer_once vad_speech_then_silence init_state
    [0] rfl⟩

/-- C5: broadcast over a duplicate-free pool in which some sends fail:
every connection whose send succeeds receives the event, and afterwards the
pool holds exactly the connections whose sends succeeded — exactly the
failing ones are pruned, in a distinct phase after the fan-out. -/
theorem broadcast_partial_failure (active : List ℕ) (send_ok : ℕ → Bool)
    (h : active.Nodup) :
    (∀ c ∈ active, send_ok c = true →
      c ∈ (ConnectionManager.broadcast active send_ok).1) ∧
    (ConnectionManager.broadcast active send_ok).1 = active.filter send_ok ∧
    (ConnectionManager.broadcast active send_ok).2 = active.filter send_ok := by
  rw [broadcast_eq active send_ok h]
  refine ⟨fun c hc hok => ?_, rfl, rfl⟩
  simpa using List.mem_filter.mpr ⟨hc, hok⟩

theorem broadcast_partial_failure_witness :
    ([1, 2, 3] : List ℕ).Nodup ∧
    ((∀ c ∈ ([1, 2, 3] : List ℕ), (fun c => c != 2) c = true →
        c ∈ (ConnectionManager.broadcast [1, 2, 3] (fun c => c != 2)).1) ∧
      (ConnectionManager.broadcast [1, 2, 3] (fun c => c != 2)).1 =
        ([1, 2, 3] : List ℕ).filter (fun c => c != 2) ∧
      (ConnectionManager.broadcast [1, 2, 3] (fun c => c != 2)).2 =
        ([1, 2, 3] : List ℕ).filter (fun c => c != 2)) ∧
    (ConnectionManager.broadcast [1, 2, 3] (fun c => c != 2)).2 = [1, 3] :=
  ⟨by decide,
   broadcast_partial_failure [1, 2, 3] (fun c => c != 2) (by decide),
   by decide⟩

/-- C6 counterexample: a run that crosses the threshold then goes silent
finalizes on the 6th consecutive silent evaluation (handing on the whole
3078-byte buffer), not earlier, although 6 does not exceed
ceil(MIN_SILENCE_MS / WINDOW_MS) = 6 — so "finalizes exactly when the count
exceeds the ceiling" fails on the code. -/
theorem finalize_at_six_counterexample :
    (pushStream vad_speech_then_silence init_state
        [chunk0, [0], [0], [0], [0], [0]]).2.1 = [] ∧
    (pushStream vad_speech_then_silence init_state
        [chunk0, [0], [0], [0], [0], [0], [0]]).2.1.map List.length
      = [3078] ∧
    ¬ ((6 : ℤ) > ⌈settings.VAD_MIN_SILENCE_DURATION_MS / 96⌉) := by
  have lb : (3072 : ℕ) ≤ chunk0.length := by
    simp [chunk0, -List.reduceReplicate]
  have l1 : (3072 : ℕ) ≤ (chunk0 ++ [0]).length := by
    simp [chunk0, -List.reduceReplicate]
  have l2 : (3072 : ℕ) ≤ (chunk0 ++ [0] ++ [0]).length := by
    simp [chunk0, -List.reduceReplicate]
  have l3 : (3072 : ℕ) ≤ (chunk0 ++ [0] ++ [0] ++ [0]).length := by
    simp [chunk0, -List.reduceReplicate]
  have l4 : (3072 : ℕ) ≤ (chunk0 ++ [0] ++ [0] ++ [0] ++ [0]).length := by
    simp [chunk0, -List.reduceReplicate]
  have l5 : (3072 : ℕ) ≤
      (chunk0 ++ [0] ++ [0] ++ [0] ++ [0] ++ [0]).length := by
    simp [chunk0, -List.reduceReplicate]
  have h0 := push_vadC6_speech
  have h1 := push_vadC6_silent chunk0 0 lb (by omega)
  have h2 := push_vadC6_silent (chunk0 ++ [0]) 1 l1 (by omega)
  have h3 := push_vadC6_silent (chunk0 ++ [0] ++ [0]) 2 l2 (by omega)
  have h4 := push_vadC6_silent (chunk0 ++ [0] ++ [0] ++ [0]) 3 l3 (by omega)
  have h5 := push_vadC6_silent (chunk0 ++ [0] ++ [0] ++ [0] ++ [0]) 4 l4
    (by omega)
  have h6 := push_vadC6_final (chunk0 ++ [0] ++ [0] ++ [0] ++ [0] ++ [0]) l5
  refine ⟨?_, ?_, ?_⟩
  · simp only [pushStream, h0, h1, h2, h3, h4, h5, Nat.reduceAdd,
      Option.toList, List.nil_append, List.append_nil]
  · simp only [pushStream, h0, h1, h2, h3, h4, h5, Nat.reduceAdd,
      Option.toList, List.nil_append, List.append_nil]
    rw [h6]
    simp only [Option.toList, List.nil_append, List.append_nil, List.map]
    simp [chunk0, -List.reduceReplicate, List.length_append,
      List.length_replicate]
  · rw [silence_ceil_eq_six]
    omega

/-- C6 amended: after speech, a silent full-buffer evaluation finalizes
exactly when the consecutive-silence count strictly exceeds
MIN_SILENCE_MS / WINDOW_MS = 500/96 itself, i.e. on the Nth silent
evaluation for N = ceil(500/96) = 6 and not before; finalization hands the
entire accumulated buffer onward, clears it, and resets is_speaking and
silence_frames. -/
theorem finalize_fires_at_sixth_silent_eval (vad : List ℕ → ℚ)
    (s : SpeechState) (chunk : List ℕ) (hr : s.is_ready = true)
    (hs : s.is_speaking = true)
    (hv : vad (s.audio_buffer ++ chunk) ≤ settings.VAD_THRESHOLD)
    (hl : 3072 ≤ (s.audio_buffer ++ chunk).length) :
    ((LocalSpeechProcessor.push_audio_chunk vad s chunk).finalized.isSome ↔
      6 ≤ s.silence_frames + 1) ∧
    (6 ≤ s.silence_frames + 1 →
      LocalSpeechProcessor.push_audio_chunk vad s chunk =
        ⟨{ s with
            audio_buffer := [], is_speaking := false,
            silence_frames := 0 },
          some (s.audio_buffer ++ chunk), some (s.audio_buffer ++ chunk)⟩) ∧
    ⌈settings.VAD_MIN_SILENCE_DURATION_MS / 96⌉ = 6 := by
  by_cases h6 : 6 ≤ s.silence_frames + 1
  · have hc : (((if s.is_speaking then s.silence_frames + 1
          else s.silence_frames : ℕ) : ℚ) >
        settings.VAD_MIN_SILENCE_DURATION_MS / 96) := by
      rw [hs, if_pos rfl, silence_count_gt_iff]
      exact h6
    rw [push_eq_of_finalize vad s chunk hr hl hv hc]
    exact ⟨by simpa using h6, fun _ => rfl, silence_ceil_eq_six⟩
  · have hc : ¬ (((if s.is_speaking then s.silence_frames + 1
          else s.silence_frames : ℕ) : ℚ) >
        settings.VAD_MIN_SILENCE_DURATION_MS / 96) := by
      rw [hs, if_pos rfl, silence_count_gt_iff]
      exact h6
    rw [push_eq_of_silence_continue vad s chunk hr hl hv hc]
    exact ⟨by simpa using h6, fun h => absurd h h6, silence_ceil_eq_six⟩

theorem finalize_fires_at_sixth_silent_eval_witness :
    (⟨chunk0, true, 5, true⟩ : SpeechState).is_ready = true ∧
    (⟨chunk0, true, 5, true⟩ : SpeechState).is_speaking = true ∧
    (fun _ : List ℕ => (0 : ℚ))
        ((⟨chunk0, true, 5, true⟩ : SpeechState).audio_buffer ++ [0]) ≤
      settings.VAD_THRESHOLD ∧
    3072 ≤ ((⟨chunk0, true, 5, true⟩ : SpeechState).audio_buffer ++
        [0]).length ∧
    (((LocalSpeechProcessor.push_audio_chunk (fun _ => (0 : ℚ))
          ⟨chunk0, true, 5, true⟩ [0]).finalized.isSome ↔
        6 ≤ (⟨chunk0, true, 5, true⟩ : SpeechState).silence_frames + 1) ∧
      (6 ≤ (⟨chunk0, true, 5, true⟩ : SpeechState).silence_frames + 1 →
        LocalSpeechProcessor.push_audio_chunk (fun _ => (0 : ℚ))
            ⟨chunk0, true, 5, true⟩ [0] =
          ⟨{ (⟨chunk0, true, 5, true⟩ : SpeechState) with
              audio_buffer := [],
              is_speaking := false, silence_frames := 0 },
            some ((⟨chunk0, true, 5, true⟩ : SpeechState).audio_buffer ++ [0]),
            some ((⟨chunk0, true, 5, true⟩ : SpeechState).audio_buffer ++
              [0])⟩) ∧
      ⌈settings.VAD_MIN_SILENCE_DURATION_MS / 96⌉ = 6) :=
  ⟨rfl, rfl, by norm_num [settings.VAD_THRESHOLD],
   by simp [chunk0, -List.reduceReplicate],
   finalize_fires_at_sixth_silent_eval (fun _ => (0 : ℚ))
     ⟨chunk0, true, 5, true⟩ [0] rfl rfl
     (by norm_num [settings.VAD_THRESHOLD])
     (by simp [chunk0, -List.reduceReplicate])⟩

/-- C7 counterexample: with two agents in the pool, unregistering one leaves
a non-empty agent pool, yet the status event broadcast by the finally block
reports agent_connected = false — it does not reflect pool membership after
removal. -/
theorem status_false_despite_remaining_agent :
    (websocket_audio_finally [1, 2] [] 1 (fun _ => true)
        init_state).agent_pool = [2] ∧
    (websocket_audio_finally [1, 2] [] 1 (fun _ => true)
        init_state).status_agent_connected = false ∧
    (websocket_audio_finally [1, 2] [] 1 (fun _ => true)
        init_state).agent_pool ≠ [] := by
  refine ⟨by decide, rfl, by decide⟩

/-- C7 amended: whenever an agent connection is unregistered on the audio
endpoint, a status event with agent_connected = false (the hard-coded value,
regardless of remaining agents) is broadcast to all observers in the same
finally block as the unregister, reaching every observer whose send
succeeds. -/
theorem teardown_broadcasts_status_false (agents observers : List ℕ) (ws : ℕ)
    (send_ok : ℕ → Bool) (s : SpeechState) (h : observers.Nodup) :
    (websocket_audio_finally agents observers ws send_ok
        s).status_agent_connected = false ∧
    (websocket_audio_finally agents observers ws send_ok s).agent_pool =
      ConnectionManager.disconnect agents ws ∧
    (websocket_audio_finally agents observers ws send_ok s).observers_reached =
      observers.filter send_ok := by
  refine ⟨rfl, rfl, ?_⟩
  unfold websocket_audio_finally
  rw [broadcast_eq observers send_ok h]

theorem teardown_broadcasts_status_false_witness :
    ([7, 8] : List ℕ).Nodup ∧
    ((websocket_audio_finally [1, 2] [7, 8] 1 (fun c => c != 8)
        init_state).status_agent_connected = false ∧
      (websocket_audio_finally [1, 2] [7, 8] 1 (fun c => c != 8)
          init_state).agent_pool = ConnectionManager.disconnect [1, 2] 1 ∧
      (websocket_audio_finally [1, 2] [7, 8] 1 (fun c => c != 8)
          init_state).observers_reached =
        ([7, 8] : List ℕ).filter (fun c => c != 8)) ∧
    (websocket_audio_finally [1, 2] [7, 8] 1 (fun c => c != 8)
        init_state).observers_reached = [7] :=
  ⟨by decide,
   teardown_broadcasts_status_false [1, 2] [7, 8] 1 (fun c => c != 8)
     init_state (by decide),
   by decide⟩

/-- C8: the capture-side frame gate admits the block byte-for-byte unchanged
exactly when both is_muted and is_paused are false, drops it exactly when
either flag is set, and never writes the control state. -/
theorem frame_gate_admits_iff_unmuted_unpaused (s : AgentControlState)
    (frame : List ℕ) :
    ((audio_callback s frame).2 = some frame ↔
      s.is_muted = false ∧ s.is_paused = false) ∧
    ((audio_callback s frame).2 = none ↔
      s.is_muted = true ∨ s.is_paused = true) ∧
    (audio_callback s frame).1 = s := by
  obtain ⟨m, p⟩ := s
  cases m <;> cases p <;> simp [audio_callback]

/-- C9: over any sequence of pushes during which the VAD oracle never
strictly exceeds the threshold (ties included, since the comparison is
strict), no finalize ever happens — silence alone never produces an
utterance, however long the run. -/
theorem no_finalize_from_pure_silence (vad : List ℕ → ℚ)
    (chunks : List (List ℕ))
    (hv : ∀ b, vad b ≤ settings.VAD_THRESHOLD) :
    (pushStream vad init_state chunks).2.1 = [] :=
  pushStream_silent vad hv chunks init_state rfl rfl

theorem no_finalize_from_pure_silence_witness :
    (∀ b : List ℕ, (fun _ : List ℕ => (0 : ℚ)) b ≤ settings.VAD_THRESHOLD) ∧
    (pushStream (fun _ : List ℕ => (0 : ℚ)) init_state [[0, 1, 2]]).2.1
      = [] :=
  ⟨fun _ => by norm_num [settings.VAD_THRESHOLD],
   no_finalize_from_pure_silence (fun _ => (0 : ℚ)) [[0, 1, 2]]
     (fun _ => by norm_num [settings.VAD_THRESHOLD])⟩

/-- C10: the audio sender re-checks the control flags when it dequeues each
frame: the sent stream is exactly the frames whose dequeue-time flags were
both clear, and a frame dequeued while muted or paused is discarded — it
never shows up later no matter what the flags do afterwards. -/
theorem sender_drops_gated_frames_at_dequeue (steps rest : List SenderStep)
    (m p : Bool) (f : List ℕ) :
    audio_sender steps =
      (steps.filter fun st => !st.is_muted && !st.is_paused).map
        SenderStep.frame ∧
    audio_sender (⟨true, p, f⟩ :: rest) = audio_sender rest ∧
    audio_sender (⟨m, true, f⟩ :: rest) = audio_sender rest := by
  refine ⟨?_, ?_, ?_⟩
  · induction steps with
    | nil => rfl
    | cons a t ih =>
        obtain ⟨am, ap, af⟩ := a
        cases am <;> cases ap <;>
          simp [audio_sender, List.filter_cons, ih]
  · simp [audio_sender]
  · cases m <;> simp [audio_sender]
